import Mathlib

/-! The to-do view (`src/App.jsx`).

A shallow embedding of the `App` component: its three pieces of local state,
its event handlers, and the rows it renders, followed by the properties of
these that the specification states.

JavaScript strings are modelled by `String`; every character that
`String.prototype.trim` removes lies in the Basic Multilingual Plane, so the
difference between UTF-16 code units and Unicode scalar values plays no part.
The identifier type of a to-do is not fixed by `App.jsx` (it only compares
identifiers with `===` and passes them on), so it is a type parameter `ι`
with decidable equality; `null` in `isEditing` is `none`.
-/

namespace TodoApp

/-! ## Strings -/

/-- ECMAScript `WhiteSpace` and `LineTerminator` code points, the characters
that `String.prototype.trim` strips from both ends of a string. -/
def isWhiteSpace (c : Char) : Bool :=
  let n := c.toNat
  n == 0x0009 || n == 0x000A || n == 0x000B || n == 0x000C || n == 0x000D ||
  n == 0x0020 || n == 0x00A0 || n == 0x1680 ||
  (0x2000 ≤ n && n ≤ 0x200A) ||
  n == 0x2028 || n == 0x2029 || n == 0x202F || n == 0x205F ||
  n == 0x3000 || n == 0xFEFF

/-- Remove the leading and the trailing run of white space from a list of
characters. -/
def trimChars (l : List Char) : List Char :=
  ((l.dropWhile isWhiteSpace).reverse.dropWhile isWhiteSpace).reverse

/-- The `trim` method of a JavaScript string. -/
def trim (s : String) : String :=
  ⟨trimChars s.data⟩

/-- JavaScript truthiness of a string: every string but the empty one. -/
def truthy (s : String) : Bool :=
  !(s.data.isEmpty)

/-! ## Data model -/

/-- A to-do record as `App.jsx` reads it: `todo.id`, `todo.text`,
`todo.completed`. -/
structure Todo (ι : Type) where
  id : ι
  text : String
  completed : Bool
  deriving DecidableEq, Repr

/-- The actions built by the creators imported from `./features/todosSlice`,
each carrying the payload `App.jsx` passes to the creator. -/
inductive Action (ι : Type) where
  | addTodo (text : String)
  | removeTodo (id : ι)
  | toggleTodo (id : ι)
  | editTodo (id : ι) (newText : String)
  deriving DecidableEq, Repr

/-- The three `useState` cells of `App`. -/
structure ViewState (ι : Type) where
  inputValue : String
  editValue : String
  isEditing : Option ι
  deriving DecidableEq, Repr

/-- Initial values of the `useState` cells. -/
def ViewState.initial {ι : Type} : ViewState ι :=
  { inputValue := "", editValue := "", isEditing := none }

/-! ## Event handlers

A handler maps the view state before the event to the view state after it
together with the actions it passed to `dispatch`, in order. -/

/-- The handler `handleTodo` (click on "Add Todo"). -/
def handleTodo {ι : Type} (v : ViewState ι) : ViewState ι × List (Action ι) :=
  if truthy (trim v.inputValue) then
    ({ v with inputValue := "" }, [Action.addTodo v.inputValue])
  else
    (v, [])

/-- The handler `handleEdit(id, text)` (click on "Edit"). -/
def handleEdit {ι : Type} (v : ViewState ι) (id : ι) (text : String) :
    ViewState ι × List (Action ι) :=
  ({ v with isEditing := some id, editValue := text }, [])

/-- The handler `saveEdit(id)` (click on "Save"). -/
def saveEdit {ι : Type} (v : ViewState ι) (id : ι) : ViewState ι × List (Action ι) :=
  if truthy (trim v.editValue) then
    ({ v with isEditing := none, editValue := "" },
      [Action.editTodo id v.editValue])
  else
    (v, [])

/-- The inline handler of the "Cancel" button: `() => setIsEditing(null)`. -/
def cancelClick {ι : Type} (v : ViewState ι) : ViewState ι × List (Action ι) :=
  ({ v with isEditing := none }, [])

/-- The inline handler of the "Toggle" button:
`() => dispatch(toggleTodo(todo.id))`. -/
def toggleClick {ι : Type} (v : ViewState ι) (id : ι) : ViewState ι × List (Action ι) :=
  (v, [Action.toggleTodo id])

/-- The inline handler of the "Remove" button:
`() => dispatch(removeTodo(todo.id))`. -/
def removeClick {ι : Type} (v : ViewState ι) (id : ι) : ViewState ι × List (Action ι) :=
  (v, [Action.removeTodo id])

/-- The `onChange` handler of the add box: `setInputValue(e.target.value)`. -/
def changeInput {ι : Type} (v : ViewState ι) (value : String) :
    ViewState ι × List (Action ι) :=
  ({ v with inputValue := value }, [])

/-- The `onChange` handler of the edit box: `setEditValue(e.target.value)`. -/
def changeEdit {ι : Type} (v : ViewState ι) (value : String) :
    ViewState ι × List (Action ι) :=
  ({ v with editValue := value }, [])

/-! ## Rendering -/

/-- What an `onClick` attribute of the rendered tree is bound to. -/
inductive Click (ι : Type) where
  | handleTodo
  | saveEdit (id : ι)
  | cancel
  | toggle (id : ι)
  | handleEdit (id : ι) (text : String)
  | remove (id : ι)
  deriving DecidableEq, Repr

/-- What an `onChange` attribute of the rendered tree is bound to. -/
inductive Change where
  | setInputValue
  | setEditValue
  deriving DecidableEq, Repr

/-- The children of a `li` or of the input container. -/
inductive Node (ι : Type) where
  | text (s : String)
  | input (value : String) (onChange : Change)
  | button (label : String) (onClick : Click ι)
  deriving DecidableEq, Repr

/-- A rendered `li`: its `key`, its `className` and its children. -/
structure Row (ι : Type) where
  key : ι
  className : String
  children : List (Node ι)
  deriving DecidableEq, Repr

/-- The body of `todos.map((todo) => ...)`. -/
def renderRow {ι : Type} [DecidableEq ι] (v : ViewState ι) (todo : Todo ι) : Row ι :=
  { key := todo.id
    className := if todo.completed then "completed" else ""
    children :=
      if v.isEditing = some todo.id then
        [ Node.input v.editValue Change.setEditValue,
          Node.button "Save" (Click.saveEdit todo.id),
          Node.button "Cancel" Click.cancel ]
      else
        [ Node.text todo.text,
          Node.button "Toggle" (Click.toggle todo.id),
          Node.button "Edit" (Click.handleEdit todo.id todo.text),
          Node.button "Remove" (Click.remove todo.id) ] }

/-- The children of the `ul`. -/
def renderList {ι : Type} [DecidableEq ι] (todos : List (Todo ι)) (v : ViewState ι) :
    List (Row ι) :=
  todos.map (renderRow v)

/-- The children of the `div` with class `input-container`. -/
def renderInputContainer {ι : Type} (v : ViewState ι) : List (Node ι) :=
  [ Node.input v.inputValue Change.setInputValue,
    Node.button "Add Todo" Click.handleTodo ]

/-- Run the handler an `onClick` attribute is bound to. -/
def click {ι : Type} (v : ViewState ι) : Click ι → ViewState ι × List (Action ι)
  | Click.handleTodo => handleTodo v
  | Click.saveEdit id => saveEdit v id
  | Click.cancel => cancelClick v
  | Click.toggle id => toggleClick v id
  | Click.handleEdit id text => handleEdit v id text
  | Click.remove id => removeClick v id

/-- Whether a row shows a text box. -/
def Row.hasInput {ι : Type} (r : Row ι) : Bool :=
  r.children.any fun n => match n with
    | Node.input _ _ => true
    | _ => false

/-- Whether a row shows a button with the given label. -/
def Row.hasButton {ι : Type} (r : Row ι) (label : String) : Bool :=
  r.children.any fun n => match n with
    | Node.button l _ => l == label
    | _ => false

/-- Whether a row shows a bare text child. -/
def Row.hasText {ι : Type} (r : Row ι) : Bool :=
  r.children.any fun n => match n with
    | Node.text _ => true
    | _ => false

/-! ## Store -/

/-- Modelled from the spec: the identifier generator of `./features/todosSlice`,
which is not among the sources. The specification asks for a "fresh unique id"
and for transitions that are pure functions of the current sequence; the model
takes numeric identifiers and picks the successor of the largest one present. -/
def freshId (S : List (Todo Nat)) : Nat :=
  (S.map Todo.id).foldr max 0 + 1

/-- Modelled from the spec: the `add(text)` transition of
`./features/todosSlice`, which is not among the sources: "if `text` trimmed is
empty, no-op; otherwise appends a new Todo with a fresh unique id, trimmed
text, `completed=false`". -/
def add (S : List (Todo Nat)) (text : String) : List (Todo Nat) :=
  if (trim text).data.isEmpty then S
  else S ++ [{ id := freshId S, text := trim text, completed := false }]

/-- Modelled from the spec: the `toggle(id)` transition of
`./features/todosSlice`, which is not among the sources: the Todo with `id`,
if any, has `completed` inverted. -/
def toggle (S : List (Todo Nat)) (id : Nat) : List (Todo Nat) :=
  S.map fun t => if t.id = id then { t with completed := !t.completed } else t

/-- Modelled from the spec: the `edit(id, newText)` transition of
`./features/todosSlice`, which is not among the sources: "if a Todo with `id`
exists and `newText` trimmed is non-empty", its text is replaced by the
trimmed `newText`; "otherwise unchanged". -/
def edit (S : List (Todo Nat)) (id : Nat) (newText : String) : List (Todo Nat) :=
  if (trim newText).data.isEmpty then S
  else S.map fun t => if t.id = id then { t with text := trim newText } else t

/-- Modelled from the spec: the `remove(id)` transition of
`./features/todosSlice`, which is not among the sources: the matching Todo, if
any, is excluded. -/
def remove (S : List (Todo Nat)) (id : Nat) : List (Todo Nat) :=
  S.filter fun t => t.id ≠ id

/-- Modelled from the spec: the reducer of `./features/todosSlice`, which is
not among the sources: each action applies the transition of its name. -/
def reducer (S : List (Todo Nat)) : Action Nat → List (Todo Nat)
  | Action.addTodo text => add S text
  | Action.removeTodo id => remove S id
  | Action.toggleTodo id => toggle S id
  | Action.editTodo id newText => edit S id newText

/-- The store after the actions a handler dispatched, applied in order. -/
def dispatchAll (S : List (Todo Nat)) (actions : List (Action Nat)) : List (Todo Nat) :=
  actions.foldl reducer S

/-! ## Lemmas on `trim` -/

theorem forall_mem_dropWhile_iff (p : Char → Bool) (l : List Char) :
    (∀ c ∈ l.dropWhile p, p c = true) ↔ ∀ c ∈ l, p c = true := by
  induction l with
  | nil => simp
  | cons a t ih =>
    by_cases h : p a = true
    · simp [List.dropWhile_cons, h, ih]
    · simp [List.dropWhile_cons, h]

theorem trimChars_eq_nil_iff (l : List Char) :
    trimChars l = [] ↔ ∀ c ∈ l, isWhiteSpace c = true := by
  unfold trimChars
  rw [List.reverse_eq_nil_iff, List.dropWhile_eq_nil_iff]
  simp only [List.mem_reverse]
  exact forall_mem_dropWhile_iff isWhiteSpace l

theorem truthy_trim_eq_false_iff (s : String) :
    truthy (trim s) = false ↔ ∀ c ∈ s.data, isWhiteSpace c = true := by
  simp [truthy, trim, trimChars_eq_nil_iff]

theorem truthy_trim_eq_true_iff (s : String) :
    truthy (trim s) = true ↔ ∃ c ∈ s.data, isWhiteSpace c = false := by
  have h := truthy_trim_eq_false_iff s
  constructor
  · intro ht
    by_contra hc
    push_neg at hc
    have : truthy (trim s) = false := h.mpr (by simpa using hc)
    simp [ht] at this
  · rintro ⟨c, hc, hw⟩
    by_contra ht
    have hf : truthy (trim s) = false := by simpa using ht
    have := h.mp hf c hc
    simp [hw] at this

theorem dropWhile_trimChars (l : List Char) :
    (trimChars l).dropWhile isWhiteSpace = trimChars l := by
  have hpre : trimChars l <+: l.dropWhile isWhiteSpace := by
    unfold trimChars
    have hs := List.dropWhile_suffix isWhiteSpace
      (l := (l.dropWhile isWhiteSpace).reverse)
    have h2 := List.reverse_prefix.mpr hs
    simpa using h2
  cases hm : trimChars l with
  | nil => rfl
  | cons a rest =>
    rw [hm] at hpre
    obtain ⟨t, ht⟩ := hpre
    have hne : l.dropWhile isWhiteSpace ≠ [] := by rw [← ht]; simp
    have hh := List.head_dropWhile_not isWhiteSpace l hne
    have ha : (l.dropWhile isWhiteSpace).head hne = a := by simp [← ht]
    rw [ha] at hh
    simp [List.dropWhile_cons, hh]

theorem trimChars_idempotent (l : List Char) :
    trimChars (trimChars l) = trimChars l := by
  have h1 := dropWhile_trimChars l
  have h2 : (trimChars l).reverse.dropWhile isWhiteSpace = (trimChars l).reverse := by
    unfold trimChars
    rw [List.reverse_reverse, List.dropWhile_idempotent]
  calc trimChars (trimChars l)
      = (((trimChars l).dropWhile isWhiteSpace).reverse.dropWhile isWhiteSpace).reverse := rfl
    _ = ((trimChars l).reverse.dropWhile isWhiteSpace).reverse := by rw [h1]
    _ = (trimChars l).reverse.reverse := by rw [h2]
    _ = trimChars l := List.reverse_reverse _

theorem trim_idempotent (s : String) : trim (trim s) = trim s := by
  simp [trim, trimChars_idempotent]

theorem trim_eq_empty_iff (s : String) :
    trim s = "" ↔ ∀ c ∈ s.data, isWhiteSpace c = true := by
  rw [← trimChars_eq_nil_iff, String.ext_iff]
  rfl

theorem truthy_eq_true_iff (s : String) : truthy s = true ↔ s ≠ "" := by
  rw [Ne, String.ext_iff]
  cases h : s.data <;> simp [truthy, h]

theorem trim_task : trim " task " = "task" := by decide

theorem trim_blanks : trim " \t\n " = "" := by decide

/-- The modelled store trims what it is given, so it ends in the same state
whether the view passes it the raw text or the trimmed text. -/
theorem reducer_trimmed_payload (S : List (Todo Nat)) (id : Nat) (text : String) :
    reducer S (Action.editTodo id (trim text)) = reducer S (Action.editTodo id text) ∧
    reducer S (Action.addTodo (trim text)) = reducer S (Action.addTodo text) := by
  simp [reducer, edit, add, trim_idempotent]

/-! ## Concrete states used to exercise the theorems -/

/-- A view state with padded text in both boxes while row `1` is edited. -/
def paddedView : ViewState Nat :=
  { inputValue := " task ", editValue := " a ", isEditing := some 1 }

/-- A view state with only blanks in both boxes while row `1` is edited. -/
def blankView : ViewState Nat :=
  { inputValue := "  ", editValue := " \t", isEditing := some 1 }

/-- A two-element store, the second to-do completed. -/
def sampleTodos : List (Todo Nat) :=
  [ { id := 1, text := "Buy milk", completed := false },
    { id := 2, text := "Walk", completed := true } ]

/-! ## The handlers -/

/-- C1: `handleTodo` dispatches exactly one `addTodo` action and empties the
input text when the input text has a character that is not white space; it
dispatches nothing and keeps the input text when the input text is empty or
all white space. Either way the edit draft and the editing id are kept. -/
theorem handleTodo_spec {ι : Type} (v : ViewState ι) :
    ((∃ c ∈ v.inputValue.data, isWhiteSpace c = false) →
        (handleTodo v).2 = [Action.addTodo v.inputValue] ∧
        (handleTodo v).1.inputValue = "") ∧
    ((∀ c ∈ v.inputValue.data, isWhiteSpace c = true) →
        (handleTodo v).2 = [] ∧ (handleTodo v).1.inputValue = v.inputValue) ∧
    (handleTodo v).1.editValue = v.editValue ∧
    (handleTodo v).1.isEditing = v.isEditing := by
  refine ⟨fun h => ?_, fun h => ?_, ?_, ?_⟩
  · have ht := (truthy_trim_eq_true_iff v.inputValue).mpr h
    simp [handleTodo, ht]
  · have ht := (truthy_trim_eq_false_iff v.inputValue).mpr h
    simp [handleTodo, ht]
  · unfold handleTodo; split <;> rfl
  · unfold handleTodo; split <;> rfl

/-- The theorem `handleTodo_spec` at `paddedView` (accepted) and at
`blankView` (rejected). -/
theorem handleTodo_spec_witness :
    ((handleTodo paddedView).2 = [Action.addTodo " task "] ∧
      (handleTodo paddedView).1.inputValue = "") ∧
    ((handleTodo blankView).2 = [] ∧ (handleTodo blankView).1.inputValue = "  ") :=
  ⟨(handleTodo_spec paddedView).1 ⟨'t', by decide, by decide⟩,
   (handleTodo_spec blankView).2.1 (by decide)⟩

/-- C2: `saveEdit id` dispatches exactly one `editTodo` action for `id` when
the edit draft, trimmed, is not empty, and then the editing id is none and the
edit draft is empty; when the edit draft is empty or all white space it
dispatches nothing and returns the view state as it was. -/
theorem saveEdit_spec {ι : Type} (v : ViewState ι) (id : ι) :
    (trim v.editValue ≠ "" →
        (∃ newText, (saveEdit v id).2 = [Action.editTodo id newText]) ∧
        (saveEdit v id).1.isEditing = none ∧
        (saveEdit v id).1.editValue = "") ∧
    ((∀ c ∈ v.editValue.data, isWhiteSpace c = true) → saveEdit v id = (v, [])) := by
  refine ⟨fun h => ?_, fun h => ?_⟩
  · have ht := (truthy_eq_true_iff _).mpr h
    simp [saveEdit, ht]
  · have ht := (truthy_trim_eq_false_iff v.editValue).mpr h
    simp [saveEdit, ht]

/-- The theorem `saveEdit_spec` at `paddedView` (saved) and at `blankView`
(rejected, row `1` still edited). -/
theorem saveEdit_spec_witness :
    ((∃ newText, (saveEdit paddedView 1).2 = [Action.editTodo 1 newText]) ∧
      (saveEdit paddedView 1).1.isEditing = none ∧
      (saveEdit paddedView 1).1.editValue = "") ∧
    saveEdit blankView 1 = (blankView, []) :=
  ⟨(saveEdit_spec paddedView 1).1 (by decide),
   (saveEdit_spec blankView 1).2 (by decide)⟩

/-- C3, as stated, fails: with the draft `" a "` the action carries `" a "`,
not the trimmed draft `"a"`. -/
theorem saveEdit_newText_not_trimmed :
    trim paddedView.editValue ≠ "" ∧
    (saveEdit paddedView 1).2 = [Action.editTodo 1 " a "] ∧
    (saveEdit paddedView 1).2 ≠ [Action.editTodo 1 (trim paddedView.editValue)] := by
  decide

/-- C3, amended: when the edit draft, trimmed, is not empty, the `newText` of
the `editTodo` action that `saveEdit` dispatches is the edit draft itself,
white space at its ends included; it is the trimmed draft exactly when
trimming leaves the draft as it is. -/
theorem saveEdit_newText_raw {ι : Type} (v : ViewState ι) (id : ι)
    (h : trim v.editValue ≠ "") :
    (saveEdit v id).2 = [Action.editTodo id v.editValue] ∧
    ((saveEdit v id).2 = [Action.editTodo id (trim v.editValue)] ↔
      trim v.editValue = v.editValue) := by
  have ht := (truthy_eq_true_iff _).mpr h
  have h2 : (saveEdit v id).2 = [Action.editTodo id v.editValue] := by
    simp [saveEdit, ht]
  refine ⟨h2, ?_⟩
  rw [h2]
  constructor
  · intro he
    simpa using he.symm
  · intro he
    rw [he]

/-- The theorem `saveEdit_newText_raw` at `paddedView`. -/
theorem saveEdit_newText_raw_witness :
    trim paddedView.editValue ≠ "" ∧
    (saveEdit paddedView 7).2 = [Action.editTodo 7 " a "] :=
  ⟨by decide, (saveEdit_newText_raw paddedView 7 (by decide)).1⟩

/-- C5: `handleEdit id text`, and so a click on the "Edit" button of the row
of a to-do, sets the editing id to that id and the edit draft to exactly that
text, whatever the draft was, dispatches nothing and keeps the input text. -/
theorem handleEdit_spec {ι : Type} (v : ViewState ι) (id : ι) (text : String)
    (todo : Todo ι) :
    (handleEdit v id text).1.isEditing = some id ∧
    (handleEdit v id text).1.editValue = text ∧
    (handleEdit v id text).2 = [] ∧
    (handleEdit v id text).1.inputValue = v.inputValue ∧
    click v (Click.handleEdit todo.id todo.text) =
      ({ inputValue := v.inputValue, editValue := todo.text, isEditing := some todo.id },
        []) := by
  refine ⟨rfl, rfl, rfl, rfl, rfl⟩

/-- C6: a click on "Cancel" dispatches nothing, sets the editing id to none,
keeps the input text, and leaves no row with an edit box. -/
theorem cancelClick_spec {ι : Type} [DecidableEq ι] (v : ViewState ι)
    (todos : List (Todo ι)) :
    (cancelClick v).2 = [] ∧
    (cancelClick v).1.isEditing = none ∧
    (cancelClick v).1.inputValue = v.inputValue ∧
    click v Click.cancel = cancelClick v ∧
    (renderList todos (cancelClick v).1).all (fun r => !r.hasInput) = true := by
  refine ⟨rfl, rfl, rfl, rfl, ?_⟩
  simp [renderList, renderRow, cancelClick, Row.hasInput]

/-- C7 fails on the code: after "Cancel" the edit draft is what it was (here
`" a "`), not the empty string that a successful `saveEdit` leaves. -/
theorem cancelClick_keeps_editValue :
    (cancelClick paddedView).1.editValue = " a " ∧
    (cancelClick paddedView).1.editValue ≠ "" ∧
    (saveEdit paddedView 1).1.editValue = "" ∧
    (cancelClick paddedView).1 ≠ (saveEdit paddedView 1).1 := by
  decide

/-- While the editing id is none the rows do not show the edit draft: after
"Cancel" the render is the same whatever the stored draft is, and the next
`handleEdit` replaces the draft. -/
theorem cancelClick_draft_not_rendered {ι : Type} [DecidableEq ι] (v : ViewState ι)
    (todos : List (Todo ι)) (draft : String) :
    renderList todos { (cancelClick v).1 with editValue := draft } =
      renderList todos (cancelClick v).1 := by
  simp [renderList, renderRow, cancelClick]

/-- C8: the "Toggle" button of a to-do dispatches exactly `toggleTodo` with
its id and the "Remove" button exactly `removeTodo` with its id, whatever the
view state and the to-do, and the view state is returned as it was. -/
theorem toggle_remove_spec {ι : Type} (v : ViewState ι) (todo : Todo ι) :
    click v (Click.toggle todo.id) = (v, [Action.toggleTodo todo.id]) ∧
    click v (Click.remove todo.id) = (v, [Action.removeTodo todo.id]) ∧
    toggleClick v todo.id = (v, [Action.toggleTodo todo.id]) ∧
    removeClick v todo.id = (v, [Action.removeTodo todo.id]) :=
  ⟨rfl, rfl, rfl, rfl⟩

/-! ## The add transition behind the "Add Todo" button -/

theorem id_le_foldr_max (S : List (Todo Nat)) :
    ∀ t ∈ S, t.id ≤ (S.map Todo.id).foldr max 0 := by
  induction S with
  | nil => simp
  | cons a rest ih =>
    intro t ht
    rcases List.mem_cons.mp ht with rfl | hr
    · simp
    · have := ih t hr
      simp only [List.map_cons, List.foldr_cons]
      omega

theorem freshId_fresh (S : List (Todo Nat)) : ∀ t ∈ S, t.id ≠ freshId S := by
  intro t ht
  have := id_le_foldr_max S t ht
  unfold freshId
  omega

/-- C4: adding text that is all white space leaves the sequence as it is,
directly and through `handleTodo`; adding `" task "` through `handleTodo`
yields the sequence followed by exactly one to-do with text `"task"`,
`completed = false`, and an id that no to-do of the sequence has. -/
theorem add_spec (S : List (Todo Nat)) :
    (∀ text : String, (∀ c ∈ text.data, isWhiteSpace c = true) → add S text = S) ∧
    (∀ v : ViewState Nat, (∀ c ∈ v.inputValue.data, isWhiteSpace c = true) →
        dispatchAll S (handleTodo v).2 = S) ∧
    (∀ v : ViewState Nat, v.inputValue = " task " →
        ∃ t : Todo Nat, dispatchAll S (handleTodo v).2 = S ++ [t] ∧
          t.text = "task" ∧ t.completed = false ∧ ∀ u ∈ S, u.id ≠ t.id) := by
  refine ⟨fun text h => ?_, fun v h => ?_, fun v h => ?_⟩
  · have he := (trim_eq_empty_iff text).mpr h
    simp [add, he]
  · have ht := (truthy_trim_eq_false_iff v.inputValue).mpr h
    simp [handleTodo, ht, dispatchAll]
  · refine ⟨{ id := freshId S, text := "task", completed := false }, ?_, rfl, rfl,
      freshId_fresh S⟩
    have ht : truthy (trim v.inputValue) = true := by rw [h]; decide
    have hk : trim " task " = "task" := by decide
    have hn : (trim " task ").data.isEmpty = false := by decide
    simp only [handleTodo, ht, if_true, dispatchAll, List.foldl_cons, List.foldl_nil,
      reducer, add, h, hn, hk]
    rfl

/-- The theorem `add_spec` at `sampleTodos`: blanks change nothing, and
`" task "` appends the to-do `3`, `"task"`, not completed. -/
theorem add_spec_witness :
    add sampleTodos "  " = sampleTodos ∧
    dispatchAll sampleTodos (handleTodo blankView).2 = sampleTodos ∧
    (∃ t : Todo Nat, dispatchAll sampleTodos (handleTodo paddedView).2 = sampleTodos ++ [t] ∧
      t.text = "task" ∧ t.completed = false ∧ ∀ u ∈ sampleTodos, u.id ≠ t.id) :=
  ⟨(add_spec sampleTodos).1 "  " (by decide),
   (add_spec sampleTodos).2.1 blankView (by decide),
   (add_spec sampleTodos).2.2 paddedView rfl⟩

/-! ## The rendered rows -/

/-- C9: a row is in one of two modes, decided by whether the editing id is
the id of its to-do. If it is, the row holds a text box whose value is the
edit draft, then "Save" and "Cancel", and neither the text of the to-do nor
"Toggle", "Edit" or "Remove". If it is not, the row holds the text of the
to-do, then "Toggle", "Edit" and "Remove", and no text box, "Save" or
"Cancel". With the editing id none, every rendered row is of the second
kind. -/
theorem renderRow_mode {ι : Type} [DecidableEq ι] (todos : List (Todo ι))
    (v : ViewState ι) :
    (∀ todo : Todo ι, v.isEditing = some todo.id →
        (renderRow v todo).children =
          [ Node.input v.editValue Change.setEditValue,
            Node.button "Save" (Click.saveEdit todo.id),
            Node.button "Cancel" Click.cancel ] ∧
        (renderRow v todo).hasText = false ∧
        (renderRow v todo).hasButton "Toggle" = false ∧
        (renderRow v todo).hasButton "Edit" = false ∧
        (renderRow v todo).hasButton "Remove" = false) ∧
    (∀ todo : Todo ι, v.isEditing ≠ some todo.id →
        (renderRow v todo).children =
          [ Node.text todo.text,
            Node.button "Toggle" (Click.toggle todo.id),
            Node.button "Edit" (Click.handleEdit todo.id todo.text),
            Node.button "Remove" (Click.remove todo.id) ] ∧
        (renderRow v todo).hasInput = false ∧
        (renderRow v todo).hasButton "Save" = false ∧
        (renderRow v todo).hasButton "Cancel" = false) ∧
    (v.isEditing = none →
        renderList todos v = todos.map fun todo =>
          { key := todo.id
            className := if todo.completed then "completed" else ""
            children :=
              [ Node.text todo.text,
                Node.button "Toggle" (Click.toggle todo.id),
                Node.button "Edit" (Click.handleEdit todo.id todo.text),
                Node.button "Remove" (Click.remove todo.id) ] }) := by
  refine ⟨fun todo h => ?_, fun todo h => ?_, fun h => ?_⟩
  · simp [renderRow, h, Row.hasText, Row.hasButton]
  · simp [renderRow, h, Row.hasInput, Row.hasButton]
  · simp [renderList, renderRow, h]

/-- The theorem `renderRow_mode` at `sampleTodos`: while row `1` is edited it
shows the draft with "Save" and "Cancel", and row `2` shows its text with
"Toggle", "Edit" and "Remove". -/
theorem renderRow_mode_witness :
    (renderRow paddedView { id := 1, text := "Buy milk", completed := false }).children =
      [ Node.input " a " Change.setEditValue,
        Node.button "Save" (Click.saveEdit 1),
        Node.button "Cancel" Click.cancel ] ∧
    (renderRow paddedView { id := 2, text := "Walk", completed := true }).children =
      [ Node.text "Walk",
        Node.button "Toggle" (Click.toggle 2),
        Node.button "Edit" (Click.handleEdit 2 "Walk"),
        Node.button "Remove" (Click.remove 2) ] :=
  ⟨((renderRow_mode sampleTodos paddedView).1 ⟨1, "Buy milk", false⟩ rfl).1,
   ((renderRow_mode sampleTodos paddedView).2.1 ⟨2, "Walk", true⟩ (by decide)).1⟩

/-- C10: the render yields one row per to-do, in the order of the sequence
(the row at each position is the row of the to-do at that position, keyed by
its id), and a row has the class `completed` exactly when its to-do is
completed, whatever the view state. -/
theorem renderList_rows {ι : Type} [DecidableEq ι] (todos : List (Todo ι))
    (v : ViewState ι) :
    (renderList todos v).length = todos.length ∧
    (renderList todos v).map Row.key = todos.map Todo.id ∧
    (∀ i : Nat, (renderList todos v)[i]? = (todos[i]?).map (renderRow v)) ∧
    (∀ todo : Todo ι,
        ((renderRow v todo).className = "completed" ↔ todo.completed = true)) ∧
    (∀ (w : ViewState ι) (todo : Todo ι),
        (renderRow w todo).className = (renderRow v todo).className) := by
  refine ⟨by simp [renderList], by simp [renderList, renderRow], fun i => ?_,
    fun todo => ?_, fun _ _ => rfl⟩
  · simp [renderList]
  · cases h : todo.completed <;> simp [renderRow, h]

end TodoApp
